import Mathlib

/-!
Verification development for a tree-walking interpreter (jlox-rs).

The definitions below are a shallow embedding of the Rust sources:
  scanner token vocabulary (src/scanner.rs and the token module),
  AST (src/expr.rs, src/stmt.rs), parser (src/parser.rs),
  resolver (src/resolver.rs), environment (src/environment.rs),
  interpreter (src/interpreter.rs) and the callable/object model
  (src/lox_callable.rs).

Modelling conventions:
  - Shared mutable `Rc<RefCell<...>>` cells (environments, instances) become
    heaps (`List Environment`, `List InstData`) indexed by `Nat` ids carried
    in the interpreter state; mutation is explicit state passing.
  - Unbounded recursion (parser descent, statement execution, environment
    chain walks) takes a fuel parameter; fuel exhaustion, and places where
    the Rust would panic (out-of-bounds index, `unwrap` on `None`), are the
    distinguished outcome `IExit.stuck` (or a defaulted token in the parser,
    see `PState.peek`).  These outcomes never arise on the runs the claims
    are about.
  - `HashMap` becomes an association list with insert-overwrite semantics
    (`alInsert` / `alFind?`); the source never iterates over a map, so this
    is observation-equivalent.
  - Numbers are IEEE doubles in the source; they are modelled as `Int`
    because no claim under study depends on floating-point behaviour, and
    no theorem below evaluates a numeric operation whose result matters.
-/

namespace JLox

/-- Association list insert with `HashMap::insert` overwrite semantics. -/
def alInsert {κ α : Type} [DecidableEq κ] (k : κ) (v : α) : List (κ × α) → List (κ × α)
  | [] => [(k, v)]
  | (k', v') :: rest => if k' = k then (k, v) :: rest else (k', v') :: alInsert k v rest

/-- Association list lookup, `HashMap::get`. -/
def alFind? {κ α : Type} [DecidableEq κ] (k : κ) : List (κ × α) → Option α
  | [] => none
  | (k', v') :: rest => if k' = k then some v' else alFind? k rest

/-- Modelled from the spec: token kinds (spec section 6 lists the keyword set;
src/token.rs is not in the sources, variant names follow their uses in
src/scanner.rs and src/parser.rs). -/
inductive TokenType
  | leftParen | rightParen | leftBrace | rightBrace
  | comma | dot | minus | plus | semicolon | star | percentage | slash
  | amperAmper | barBar
  | bang | bangEqual | equal | equalEqual
  | greater | greaterEqual | less | lessEqual
  | identifier | stringTok | number
  | andKW | classKW | elseKW | falseKW | funKW | forKW | ifKW | nilKW
  | orKW | returnKW | superKW | selfKW | trueKW | varKW | whileKW
  | eof
  deriving DecidableEq, Repr

/-- Modelled from the spec: the literal payload a token or a `Literal` AST node
carries (spec section 3, Token / AST node).  In the source this is the one
runtime-value type `LiteralType`; only the data variants ever occur in tokens
and in `Literal` nodes, so the embedding splits those off to keep the AST a
plain inductive type. -/
inductive ScanLit
  | number (n : Int)
  | str (s : String)
  | boolean (b : Bool)
  | nil
  deriving DecidableEq, Repr

/-- Modelled from the spec: a token (kind, lexeme, literal payload, source
line); spec section 3. -/
structure Token where
  tokenType : TokenType
  lexeme : String
  literal : ScanLit
  line : Nat
  deriving DecidableEq, Repr

/- AST from src/expr.rs and src/stmt.rs.  Every expression node carries the
process-unique `uuid` assigned at construction; the resolver side-table is
keyed by that number alone (expr.rs implements Eq/Hash over `get_uid`). -/

mutual

inductive Expr
  | assignment (name : Token) (value : Expr) (uuid : Nat)
  | binary (left : Expr) (operator : Token) (right : Expr) (uuid : Nat)
  | call (callee : Expr) (paren : Token) (arguments : List Expr) (uuid : Nat)
  | get (object : Expr) (name : Token) (uuid : Nat)
  | grouping (e : Expr) (uuid : Nat)
  | literal (value : ScanLit) (uuid : Nat)
  | logical (left : Expr) (operator : Token) (right : Expr) (uuid : Nat)
  | set (object : Expr) (name : Token) (value : Expr) (uuid : Nat)
  | unary (operator : Token) (right : Expr) (uuid : Nat)
  | selfExpr (keyword : Token) (uuid : Nat)
  | varRef (name : Token) (uuid : Nat)

inductive Stmt
  | block (statements : List Stmt)
  | classDecl (name : Token) (superclass : Option Expr) (methods : List Stmt)
  | expression (e : Expr)
  | ifStmt (condition : Expr) (thenBranch : Stmt) (elseBranch : Option Stmt)
  | varDecl (name : Token) (initializer : Expr)
  | whileStmt (condition : Expr) (body : Stmt)
  | function (decl : FunctionDecl)
  | ret (keyword : Token) (value : Expr)

inductive FunctionDecl
  | mk (name : Token) (params : List Token) (body : List Stmt)

end

def FunctionDecl.name : FunctionDecl → Token
  | .mk n _ _ => n

def FunctionDecl.params : FunctionDecl → List Token
  | .mk _ p _ => p

def FunctionDecl.body : FunctionDecl → List Stmt
  | .mk _ _ b => b

/- Runtime values, src/lox_callable.rs.  Environments and instances are
shared-ownership cells in the source; values reference them through heap
ids (`closure : Nat`, `inst : Nat`). -/

/-- LoxFunction: declaration + captured environment (heap id) + initializer
flag (src/lox_callable.rs). -/
structure LoxFunction where
  declaration : FunctionDecl
  closure : Nat
  isInitializer : Bool

/-- LoxClass: name, optional superclass, method map (src/lox_callable.rs). -/
inductive LoxClass
  | mk (name : String) (superclass : Option LoxClass) (methods : List (String × LoxFunction))

def LoxClass.name : LoxClass → String
  | .mk n _ _ => n

def LoxClass.superclass : LoxClass → Option LoxClass
  | .mk _ s _ => s

def LoxClass.methods : LoxClass → List (String × LoxFunction)
  | .mk _ _ m => m

/-- Native function tag: the two pre-registered natives (src/interpreter.rs,
Interpreter::new).  The clock reads the system time, an effect outside the
model; its numeric result never matters to a claim. -/
inductive NativeTag
  | clock
  | print

structure NativeFn where
  arity : Nat
  tag : NativeTag

/-- Callable, src/lox_callable.rs. -/
inductive Callable
  | func (f : LoxFunction)
  | cls (c : LoxClass)
  | inst (id : Nat)

/-- Runtime value (`LiteralType` in the source, the token module; spec
section 3, Runtime value). -/
inductive Value
  | number (n : Int)
  | str (s : String)
  | boolean (b : Bool)
  | nil
  | callable (c : Callable)
  | nativeFunction (f : NativeFn)

def ScanLit.toValue : ScanLit → Value
  | .number n => .number n
  | .str s => .str s
  | .boolean b => .boolean b
  | .nil => .nil

/-- Environment frame, src/environment.rs: name-to-value map plus optional
enclosing frame (heap id). -/
structure Environment where
  values : List (String × Value)
  enclosing : Option Nat

/-- Instance data, src/lox_callable.rs `LoxInstance`. -/
structure InstData where
  cls : LoxClass
  fields : List (String × Value)

/-- Exit signals: the source `Exit` enum (RuntimeError, Return) plus `stuck`
for fuel exhaustion and source panics, which never occur on the modelled
runs. -/
inductive IExit
  | runtimeError
  | ret (v : Value)
  | stuck

/-- Interpreter state: environment heap, instance heap, current and global
frame ids, the resolver side-table `locals` (uuid to hop count), and the
trace of values printed by the `print` native (models stdout). -/
structure InterpState where
  envs : List Environment
  instances : List InstData
  environment : Nat
  globals : Nat
  locals : List (Nat × Nat)
  output : List Value

/-- Sequencing for state-passing fallible computations (the `?` operator:
an error propagates, the state reached so far is kept). -/
def bindE {ε σ α β : Type} (x : Except ε α × σ) (f : α → σ → Except ε β × σ) :
    Except ε β × σ :=
  match x with
  | (.ok a, s) => f a s
  | (.error e, s) => (.error e, s)

@[simp] theorem bindE_ok {ε σ α β : Type} (a : α) (s : σ) (f : α → σ → Except ε β × σ) :
    bindE (Except.ok a, s) f = f a s := rfl

@[simp] theorem bindE_error {ε σ α β : Type} (e : ε) (s : σ) (f : α → σ → Except ε β × σ) :
    bindE (Except.error e, s) f = (Except.error e, s) := rfl

/- Environment operations, src/environment.rs. -/

/-- Environment::define — insert/overwrite in the addressed frame. -/
def envDefine (heap : List Environment) (eid : Nat) (name : String) (v : Value) :
    List Environment :=
  match heap[eid]? with
  | some env => heap.set eid { env with values := alInsert name v env.values }
  | none => heap

/-- Environment::get — search the addressed frame, then walk the enclosing
chain; undefined-variable runtime error at the root. -/
def envGet (fuel : Nat) (heap : List Environment) (eid : Nat) (name : String) :
    Except IExit Value :=
  match fuel with
  | 0 => .error .stuck
  | fuel + 1 =>
    match heap[eid]? with
    | none => .error .stuck
    | some env =>
      match alFind? name env.values with
      | some v => .ok v
      | none =>
        match env.enclosing with
        | some e => envGet fuel heap e name
        | none => .error .runtimeError

/-- Environment::assign — search the chain for an existing binding; error if
the root is reached without one. -/
def envAssign (fuel : Nat) (heap : List Environment) (eid : Nat) (name : String) (v : Value) :
    Except IExit Unit × List Environment :=
  match fuel with
  | 0 => (.error .stuck, heap)
  | fuel + 1 =>
    match heap[eid]? with
    | none => (.error .stuck, heap)
    | some env =>
      if (alFind? name env.values).isSome then
        (.ok (), heap.set eid { env with values := alInsert name v env.values })
      else
        match env.enclosing with
        | some e => envAssign fuel heap e name v
        | none => (.error .runtimeError, heap)

/-- Environment::get_at — recurse `distance` frames outward, then call `get`
(which itself searches onward from that frame); `unwrap` on a missing
enclosing link is a panic, modelled `stuck`. -/
def envGetAt (fuel : Nat) (heap : List Environment) (eid : Nat) (distance : Nat)
    (name : String) : Except IExit Value :=
  match distance with
  | 0 => envGet fuel heap eid name
  | d + 1 =>
    match heap[eid]? with
    | none => .error .stuck
    | some env =>
      match env.enclosing with
      | some e => envGetAt fuel heap e d name
      | none => .error .stuck

/-- Environment::assign_at — recurse `distance` frames outward, then `define`
directly on that frame. -/
def envAssignAt (heap : List Environment) (eid : Nat) (distance : Nat) (name : String)
    (v : Value) : Except IExit Unit × List Environment :=
  match distance with
  | 0 => (.ok (), envDefine heap eid name v)
  | d + 1 =>
    match heap[eid]? with
    | none => (.error .stuck, heap)
    | some env =>
      match env.enclosing with
      | some e => envAssignAt heap e d name v
      | none => (.error .stuck, heap)

/-- The frame id reached by following `d` enclosing links (specification
device for the get_at/assign_at theorems; not part of the source). -/
def ancestorAt (heap : List Environment) (eid : Nat) : Nat → Option Nat
  | 0 => some eid
  | d + 1 =>
    match heap[eid]? with
    | none => none
    | some env =>
      match env.enclosing with
      | some e => ancestorAt heap e d
      | none => none

/- Resolver, src/resolver.rs.  A resolution error is `ParseError {}`, carrying
nothing; diagnostics go to stderr and are not modelled.  State mutations made
before an early `return Err` persist, exactly as with `&mut self` in the
source, so every function threads the state even on the error path. -/

inductive FunctionType
  | none
  | function
  | initializer
  | method
  deriving DecidableEq, Repr

inductive ClassType
  | none
  | hasClass
  deriving DecidableEq, Repr

/-- Resolver state: scope stack (innermost last, each scope a name-to-ready
map), the two context kinds, and the interpreter-owned side-table `locals`
that `Interpreter::resolve` writes (uuid to hop count). -/
structure RState where
  scopes : List (List (String × Bool))
  currentFunction : FunctionType
  currentClass : ClassType
  locals : List (Nat × Nat)

def RState.beginScope (st : RState) : RState :=
  { st with scopes := st.scopes ++ [[]] }

def RState.endScope (st : RState) : RState :=
  { st with scopes := st.scopes.dropLast }

/-- Replace the innermost scope (the last pushed). -/
def RState.setLast (st : RState) (sc : List (String × Bool)) : RState :=
  { st with scopes := st.scopes.dropLast ++ [sc] }

/-- Resolver::declare — duplicate name in the innermost scope is an error;
no-op when the scope stack is empty (global level). -/
def rDeclare (st : RState) (name : Token) : Except Unit Unit × RState :=
  match st.scopes.getLast? with
  | Option.none => (.ok (), st)
  | some sc =>
    if (alFind? name.lexeme sc).isSome then
      (.error (), st)
    else
      (.ok (), st.setLast (alInsert name.lexeme false sc))

/-- Resolver::define — mark the name ready in the innermost scope. -/
def rDefine (st : RState) (name : Token) : RState :=
  match st.scopes.getLast? with
  | Option.none => st
  | some sc => st.setLast (alInsert name.lexeme true sc)

/-- Interpreter::resolve — record a hop count against an expression uuid in
the side-table (insert with overwrite). -/
def interpResolve (st : RState) (uuid : Nat) (depth : Nat) : RState :=
  { st with locals := alInsert uuid depth st.locals }

/-- The loop body of Resolver::resolve_local: `for (i, scope) in
scopes.iter().enumerate().rev()` visits the innermost scope first (depth 0)
and proceeds outward, and for EVERY scope containing the name records the
depth — there is no break, so a later (outer) hit overwrites an earlier
(inner) one in the side-table. -/
def resolveLocalAux (uuid : Nat) (name : String) :
    List (List (String × Bool)) → Nat → RState → RState
  | [], _, st => st
  | sc :: rest, depth, st =>
    let st' := if (alFind? name sc).isSome then interpResolve st uuid depth else st
    resolveLocalAux uuid name rest (depth + 1) st'

/-- Resolver::resolve_local. -/
def resolveLocal (st : RState) (uuid : Nat) (name : Token) : RState :=
  resolveLocalAux uuid name.lexeme st.scopes.reverse 0 st

/-- The parameter loop of Resolver::resolve_function: declare and define each
parameter in order (a duplicate parameter name errors in `declare`). -/
def declareParams (params : List Token) (st : RState) : Except Unit Unit × RState :=
  match params with
  | [] => (.ok (), st)
  | p :: rest =>
    bindE (rDeclare st p) fun _ st₁ => declareParams rest (rDefine st₁ p)

mutual

/-- Resolver expression dispatch (expr::Visitor for Resolver). -/
def resolveExpr (fuel : Nat) (e : Expr) (st : RState) : Except Unit Unit × RState :=
  match fuel with
  | 0 => (.error (), st)
  | fuel + 1 =>
    match e with
    | .varRef name uuid =>
      -- visit_variable: read-in-own-initializer check, then resolve_local
      if st.scopes ≠ [] ∧ alFind? name.lexeme (st.scopes.getLast?.getD []) = some false then
        (.error (), st)
      else
        (.ok (), resolveLocal st uuid name)
    | .assignment name value uuid =>
      bindE (resolveExpr fuel value st) fun _ st₁ =>
        (.ok (), resolveLocal st₁ uuid name)
    | .binary left _ right _ =>
      bindE (resolveExpr fuel left st) fun _ st₁ => resolveExpr fuel right st₁
    | .call callee _ args _ =>
      bindE (resolveExpr fuel callee st) fun _ st₁ => resolveExprList fuel args st₁
    | .grouping inner _ => resolveExpr fuel inner st
    | .literal _ _ => (.ok (), st)
    | .logical left _ right _ =>
      bindE (resolveExpr fuel left st) fun _ st₁ => resolveExpr fuel right st₁
    | .unary _ right _ => resolveExpr fuel right st
    | .get object _ _ => resolveExpr fuel object st
    | .set object _ value _ =>
      -- visit_set resolves the value first, then the object
      bindE (resolveExpr fuel value st) fun _ st₁ => resolveExpr fuel object st₁
    | .selfExpr keyword uuid =>
      -- visit_self_expr: error outside a class body
      match st.currentClass with
      | ClassType.none => (.error (), st)
      | ClassType.hasClass => (.ok (), resolveLocal st uuid keyword)

def resolveExprList (fuel : Nat) (es : List Expr) (st : RState) : Except Unit Unit × RState :=
  match fuel with
  | 0 => (.error (), st)
  | fuel + 1 =>
    match es with
    | [] => (.ok (), st)
    | e :: rest =>
      bindE (resolveExpr fuel e st) fun _ st₁ => resolveExprList fuel rest st₁

/-- Resolver statement dispatch (stmt::Visitor for Resolver). -/
def resolveStmt (fuel : Nat) (stmt : Stmt) (st : RState) : Except Unit Unit × RState :=
  match fuel with
  | 0 => (.error (), st)
  | fuel + 1 =>
    match stmt with
    | .block stmts =>
      -- visit_block; an error from the statements propagates before end_scope
      bindE (resolveStmts fuel stmts st.beginScope) fun _ st₁ =>
        (.ok (), st₁.endScope)
    | .classDecl name _ methods =>
      -- visit_class: the superclass expression is never resolved
      let enclosing := st.currentClass
      let st₁ := { st with currentClass := ClassType.hasClass }
      bindE (rDeclare st₁ name) fun _ st₂ =>
        let st₃ := rDefine st₂ name
        let st₄ := st₃.beginScope.setLast (alInsert "self" true [])
        bindE (resolveMethods fuel methods st₄) fun _ st₅ =>
          (.ok (), { st₅.endScope with currentClass := enclosing })
    | .expression e => resolveExpr fuel e st
    | .ifStmt cond thenB elseB =>
      bindE (resolveExpr fuel cond st) fun _ st₁ =>
        bindE (resolveStmt fuel thenB st₁) fun _ st₂ =>
          match elseB with
          | some eb => resolveStmt fuel eb st₂
          | Option.none => (.ok (), st₂)
    | .varDecl name initializer =>
      bindE (rDeclare st name) fun _ st₁ =>
        bindE (resolveExpr fuel initializer st₁) fun _ st₂ =>
          (.ok (), rDefine st₂ name)
    | .whileStmt cond body =>
      bindE (resolveExpr fuel cond st) fun _ st₁ => resolveStmt fuel body st₁
    | .function decl =>
      bindE (rDeclare st decl.name) fun _ st₁ =>
        resolveFunction fuel decl FunctionType.function (rDefine st₁ decl.name)
    | .ret _ value =>
      -- visit_return: return outside any function, and ANY return while the
      -- current function kind is initializer, are errors (the check does not
      -- inspect the carried value)
      match st.currentFunction with
      | FunctionType.none => (.error (), st)
      | FunctionType.initializer => (.error (), st)
      | _ => resolveExpr fuel value st

def resolveStmts (fuel : Nat) (stmts : List Stmt) (st : RState) : Except Unit Unit × RState :=
  match fuel with
  | 0 => (.error (), st)
  | fuel + 1 =>
    match stmts with
    | [] => (.ok (), st)
    | s :: rest =>
      bindE (resolveStmt fuel s st) fun _ st₁ => resolveStmts fuel rest st₁

/-- The `for method in stmt.methods` loop of visit_class: each Stmt::Function
is resolved with kind initializer when named "new", method otherwise. -/
def resolveMethods (fuel : Nat) (methods : List Stmt) (st : RState) :
    Except Unit Unit × RState :=
  match fuel with
  | 0 => (.error (), st)
  | fuel + 1 =>
    match methods with
    | [] => (.ok (), st)
    | m :: rest =>
      match m with
      | .function f =>
        let kind := if f.name.lexeme = "new" then FunctionType.initializer
                    else FunctionType.method
        bindE (resolveFunction fuel f kind st) fun _ st₁ =>
          resolveMethods fuel rest st₁
      | _ => resolveMethods fuel rest st

/-- Resolver::resolve_function — save/switch the function kind, open the
parameter scope, declare+define every parameter, resolve the body, close the
scope, restore the kind; an early error skips the restores, as in the
source. -/
def resolveFunction (fuel : Nat) (f : FunctionDecl) (kind : FunctionType) (st : RState) :
    Except Unit Unit × RState :=
  match fuel with
  | 0 => (.error (), st)
  | fuel + 1 =>
    let enclosingFn := st.currentFunction
    let st₁ := ({ st with currentFunction := kind } : RState).beginScope
    bindE (declareParams f.params st₁) fun _ st₂ =>
      bindE (resolveStmts fuel f.body st₂) fun _ st₃ =>
        (.ok (), { st₃.endScope with currentFunction := enclosingFn })

end

/-- Initial resolver state (Resolver::new over a fresh interpreter). -/
def initialRState : RState :=
  { scopes := [], currentFunction := FunctionType.none,
    currentClass := ClassType.none, locals := [] }

/- Interpreter, src/interpreter.rs and src/lox_callable.rs. -/

/-- Interpreter::is_truthy — everything but false and nil is truthy. -/
def isTruthy : Value → Bool
  | .str _ => true
  | .number _ => true
  | .nil => false
  | .boolean b => b
  | .callable _ => true
  | .nativeFunction _ => true

/-- Interpreter::is_equal — same-tag value comparison; nil equals nil; any
other combination (callables included) is unequal. -/
def isEqual : Value → Value → Bool
  | .number l, .number r => l == r
  | .str l, .str r => l == r
  | .boolean l, .boolean r => l == r
  | .nil, .nil => true
  | _, _ => false

/-- LoxClass::find_method — own map first, then the superclass chain. -/
def findMethod : LoxClass → String → Option LoxFunction
  | .mk _ superclass methods, name =>
    match alFind? name methods with
    | some f => some f
    | none =>
      match superclass with
      | some sc => findMethod sc name
      | none => none

/-- LoxClass::arity — the constructor's arity if a "new" method exists,
otherwise 0. -/
def LoxClass.arity (c : LoxClass) : Nat :=
  match findMethod c "new" with
  | some i => i.declaration.params.length
  | none => 0

/-- LoxCallable::check_arity. -/
def checkArity (expected got : Nat) : Except IExit Unit :=
  if got ≠ expected then .error .runtimeError else .ok ()

/-- LoxFunction::bind — a fresh frame enclosing the method's closure, binding
"self" to the given instance id; the returned function closes over the new
frame. -/
def LoxFunction.bind (f : LoxFunction) (iid : Nat) (s : InterpState) :
    LoxFunction × InterpState :=
  let eid := s.envs.length
  let envData : Environment :=
    { values := [("self", Value.callable (Callable.inst iid))], enclosing := some f.closure }
  ({ f with closure := eid }, { s with envs := s.envs ++ [envData] })

/-- The two native functions (Interpreter::new).  clock reads the system
time (out of model, result value irrelevant to every claim); print appends
its argument to the output trace and returns nil. -/
def callNative (f : NativeFn) (args : List Value) (s : InterpState) :
    Except IExit Value × InterpState :=
  match f.tag with
  | .clock => (.ok (.number 0), s)
  | .print => (.ok .nil, { s with output := s.output ++ [args.getD 0 .nil] })

/-- LoxInstance::get — fields first, then the class method chain; a method
hit is bound via `bind(Rc::new(RefCell::new(self.to_owned())))`: the
receiver is CLONED into a fresh instance cell and the bound "self" frame
references that copy, not the accessed instance.  (The debug print on the
undefined-property path is not modelled.) -/
def instanceGet (s : InterpState) (iid : Nat) (name : Token) :
    Except IExit Value × InterpState :=
  match s.instances[iid]? with
  | none => (.error .stuck, s)
  | some inst =>
    match alFind? name.lexeme inst.fields with
    | some v => (.ok v, s)
    | none =>
      match findMethod inst.cls name.lexeme with
      | some m =>
        let copyId := s.instances.length
        let s₁ := { s with instances := s.instances ++ [inst] }
        let bf := m.bind copyId s₁
        (.ok (.callable (.func bf.1)), bf.2)
      | none => (.error .runtimeError, s)

/-- LoxInstance::set — insert/overwrite a field. -/
def instanceSet (s : InterpState) (iid : Nat) (name : Token) (v : Value) : InterpState :=
  match s.instances[iid]? with
  | some inst =>
    { s with instances :=
        s.instances.set iid { inst with fields := alInsert name.lexeme v inst.fields } }
  | none => s

/-- Interpreter::look_up_variable — hop-table fast path, else a direct global
lookup. -/
def lookUpVariable (fuel : Nat) (name : Token) (uuid : Nat) (s : InterpState) :
    Except IExit Value × InterpState :=
  match alFind? uuid s.locals with
  | some d => (envGetAt fuel s.envs s.environment d name.lexeme, s)
  | none => (envGet fuel s.envs s.globals name.lexeme, s)

/-- The parameter-binding loop of LoxFunction::call: a fresh frame enclosing
the captured closure, with each parameter zipped to its argument. -/
def paramBind (params : List Token) (args : List Value) (closure : Nat) : Environment :=
  { values := (params.zip args).foldl (fun vs pa => alInsert pa.1.lexeme pa.2 vs) [],
    enclosing := some closure }

/-- The method-collection loop of Interpreter::visit_class: every
Stmt::Function member becomes a LoxFunction closing over the current
environment, is-initializer iff named "new". -/
def collectMethods (envId : Nat) (stmts : List Stmt) : List (String × LoxFunction) :=
  stmts.foldl
    (fun acc m =>
      match m with
      | .function f =>
        alInsert f.name.lexeme
          { declaration := f, closure := envId, isInitializer := f.name.lexeme == "new" } acc
      | _ => acc)
    []

/-- Interpreter::visit_binary operator dispatch, applied after both operands
are evaluated.  The catch-all arm is `unreachable!()` in the source. -/
def evalBinaryOp (operator : Token) (left right : Value) : Except IExit Value :=
  match operator.tokenType with
  | .minus =>
    match left, right with
    | .number l, .number r => .ok (.number (l - r))
    | _, _ => .error .runtimeError
  | .slash =>
    match left, right with
    | .number l, .number r => .ok (.number (l / r))
    | _, _ => .error .runtimeError
  | .percentage =>
    match left, right with
    | .number l, .number r => .ok (.number (l % r))
    | _, _ => .error .runtimeError
  | .star =>
    match left, right with
    | .number l, .number r => .ok (.number (l * r))
    | _, _ => .error .runtimeError
  | .plus =>
    match left, right with
    | .number l, .number r => .ok (.number (l + r))
    | .str l, .str r => .ok (.str (l ++ r))
    | _, _ => .error .runtimeError
  | .greater =>
    match left, right with
    | .number l, .number r => .ok (.boolean (decide (l > r)))
    | _, _ => .error .runtimeError
  | .less =>
    match left, right with
    | .number l, .number r => .ok (.boolean (decide (l < r)))
    | _, _ => .error .runtimeError
  | .greaterEqual =>
    match left, right with
    | .number l, .number r => .ok (.boolean (decide (l ≥ r)))
    | _, _ => .error .runtimeError
  | .lessEqual =>
    match left, right with
    | .number l, .number r => .ok (.boolean (decide (l ≤ r)))
    | _, _ => .error .runtimeError
  | .equalEqual => .ok (.boolean (isEqual left right))
  | .bangEqual => .ok (.boolean (!isEqual left right))
  | _ => .error .stuck

mutual

/-- Interpreter expression dispatch (expr::Visitor for Interpreter). -/
def evalExpr (fuel : Nat) (e : Expr) (s : InterpState) : Except IExit Value × InterpState :=
  match fuel with
  | 0 => (.error .stuck, s)
  | fuel + 1 =>
    match e with
    | .binary left operator right _ =>
      bindE (evalExpr fuel left s) fun l s₁ =>
        bindE (evalExpr fuel right s₁) fun r s₂ =>
          (evalBinaryOp operator l r, s₂)
    | .call callee _ args _ =>
      bindE (evalExpr fuel callee s) fun cv s₁ =>
        bindE (evalArgs fuel args s₁) fun avs s₂ =>
          match cv with
          | .nativeFunction f =>
            (match checkArity f.arity avs.length with
             | .ok _ => callNative f avs s₂
             | .error e => (.error e, s₂))
          | .callable (.func f) =>
            (match checkArity f.declaration.params.length avs.length with
             | .ok _ => callFunction fuel f avs s₂
             | .error e => (.error e, s₂))
          | .callable (.cls c) =>
            (match checkArity c.arity avs.length with
             | .ok _ => callClass fuel c avs s₂
             | .error e => (.error e, s₂))
          | _ => (.error .runtimeError, s₂)
    | .grouping inner _ => evalExpr fuel inner s
    | .literal v _ => (.ok v.toValue, s)
    | .logical left operator right _ =>
      -- visit_logical: or-kinds return a truthy left, every other operator
      -- returns a falsy left; otherwise the right operand is evaluated
      bindE (evalExpr fuel left s) fun l s₁ =>
        match operator.tokenType with
        | .orKW | .barBar => if isTruthy l then (.ok l, s₁) else evalExpr fuel right s₁
        | _ => if !(isTruthy l) then (.ok l, s₁) else evalExpr fuel right s₁
    | .unary operator right _ =>
      bindE (evalExpr fuel right s) fun r s₁ =>
        match operator.tokenType with
        | .minus =>
          (match r with
           | .number n => (.ok (.number (-n)), s₁)
           | _ => (.error .runtimeError, s₁))
        | .bang => (.ok (.boolean (!isTruthy r)), s₁)
        | _ => (.error .stuck, s₁)
    | .varRef name uuid => lookUpVariable fuel name uuid s
    | .assignment name value uuid =>
      bindE (evalExpr fuel value s) fun v s₁ =>
        match alFind? uuid s₁.locals with
        | some d =>
          let r := envAssignAt s₁.envs s₁.environment d name.lexeme v
          (match r.1 with
           | .ok _ => (.ok v, { s₁ with envs := r.2 })
           | .error e => (.error e, { s₁ with envs := r.2 }))
        | none =>
          let r := envAssign fuel s₁.envs s₁.globals name.lexeme v
          (match r.1 with
           | .ok _ => (.ok v, { s₁ with envs := r.2 })
           | .error e => (.error e, { s₁ with envs := r.2 }))
    | .get object name _ =>
      bindE (evalExpr fuel object s) fun ov s₁ =>
        match ov with
        | .callable (.inst iid) => instanceGet s₁ iid name
        | _ => (.error .runtimeError, s₁)
    | .set object name value _ =>
      -- visit_set: the object is evaluated (and checked) before the value
      bindE (evalExpr fuel object s) fun ov s₁ =>
        match ov with
        | .callable (.inst iid) =>
          bindE (evalExpr fuel value s₁) fun v s₂ =>
            (.ok v, instanceSet s₂ iid name v)
        | _ => (.error .runtimeError, s₁)
    | .selfExpr keyword uuid => lookUpVariable fuel keyword uuid s

/-- The argument-evaluation loop of visit_call. -/
def evalArgs (fuel : Nat) (es : List Expr) (s : InterpState) :
    Except IExit (List Value) × InterpState :=
  match fuel with
  | 0 => (.error .stuck, s)
  | fuel + 1 =>
    match es with
    | [] => (.ok [], s)
    | e :: rest =>
      bindE (evalExpr fuel e s) fun v s₁ =>
        bindE (evalArgs fuel rest s₁) fun vs s₂ => (.ok (v :: vs), s₂)

/-- Interpreter statement dispatch (stmt::Visitor for Interpreter). -/
def execStmt (fuel : Nat) (stmt : Stmt) (s : InterpState) : Except IExit Unit × InterpState :=
  match fuel with
  | 0 => (.error .stuck, s)
  | fuel + 1 =>
    match stmt with
    | .expression e => bindE (evalExpr fuel e s) fun _ s₁ => (.ok (), s₁)
    | .ifStmt cond thenB elseB =>
      bindE (evalExpr fuel cond s) fun c s₁ =>
        if isTruthy c then execStmt fuel thenB s₁
        else
          match elseB with
          | some eb => execStmt fuel eb s₁
          | none => (.ok (), s₁)
    | .whileStmt cond body =>
      bindE (evalExpr fuel cond s) fun c s₁ =>
        if !(isTruthy c) then (.ok (), s₁)
        else
          bindE (execStmt fuel body s₁) fun _ s₂ =>
            execStmt fuel (Stmt.whileStmt cond body) s₂
    | .varDecl name initializer =>
      bindE (evalExpr fuel initializer s) fun v s₁ =>
        (.ok (), { s₁ with envs := envDefine s₁.envs s₁.environment name.lexeme v })
    | .block stmts =>
      -- visit_block
      executeBlock fuel stmts { values := [], enclosing := some s.environment } s
    | .function decl =>
      -- visit_function: close over the currently active environment
      let f : LoxFunction :=
        { declaration := decl, closure := s.environment, isInitializer := false }
      (.ok (),
       { s with envs := envDefine s.envs s.environment decl.name.lexeme (.callable (.func f)) })
    | .classDecl name _ methods =>
      -- visit_class: the name is bound to nil first; the superclass
      -- expression is NEVER evaluated (the statement field is ignored) and
      -- the class is built without a superclass.  The source line
      -- `LoxClass::new(stmt.name.lexeme.clone(), methods)` passes two
      -- arguments although LoxClass::new takes (name, superclass, methods).
      let s₁ := { s with envs := envDefine s.envs s.environment name.lexeme .nil }
      let ms := collectMethods s₁.environment methods
      let classVal : Value := .callable (.cls (LoxClass.mk name.lexeme none ms))
      let r := envAssign fuel s₁.envs s₁.environment name.lexeme classVal
      (match r.1 with
       | .ok _ => (.ok (), { s₁ with envs := r.2 })
       | .error e => (.error e, { s₁ with envs := r.2 }))
    | .ret _ value =>
      -- visit_return: a Return exit signal carrying the evaluated value
      bindE (evalExpr fuel value s) fun v s₁ => (.error (.ret v), s₁)

/-- The try_for_each loop over a statement list (used by interpret and
execute_block). -/
def execStmtList (fuel : Nat) (stmts : List Stmt) (s : InterpState) :
    Except IExit Unit × InterpState :=
  match fuel with
  | 0 => (.error .stuck, s)
  | fuel + 1 =>
    match stmts with
    | [] => (.ok (), s)
    | st :: rest =>
      bindE (execStmt fuel st s) fun _ s₁ => execStmtList fuel rest s₁

/-- Interpreter::execute_block — save the current frame id, allocate the
given frame as current, run the statements, then restore the saved frame
unconditionally and propagate the statements' outcome. -/
def executeBlock (fuel : Nat) (stmts : List Stmt) (env : Environment) (s : InterpState) :
    Except IExit Unit × InterpState :=
  match fuel with
  | 0 => (.error .stuck, s)
  | fuel + 1 =>
    let previous := s.environment
    let eid := s.envs.length
    let s₁ := { s with envs := s.envs ++ [env], environment := eid }
    let r := execStmtList fuel stmts s₁
    (r.1, { r.2 with environment := previous })

/-- LoxFunction::call — run the body in a fresh parameter frame; a Return
exit becomes the call's value; a completed non-initializer body yields nil;
an initializer yields "self" at hop 0 of the captured closure. -/
def callFunction (fuel : Nat) (f : LoxFunction) (args : List Value) (s : InterpState) :
    Except IExit Value × InterpState :=
  match fuel with
  | 0 => (.error .stuck, s)
  | fuel + 1 =>
    let r := executeBlock fuel f.declaration.body (paramBind f.declaration.params args f.closure) s
    match r.1 with
    | .error (.ret v) => (.ok v, r.2)
    | .error .runtimeError => (.error .runtimeError, r.2)
    | .error .stuck => (.error .stuck, r.2)
    | .ok _ =>
      if f.isInitializer then
        (envGetAt fuel r.2.envs f.closure 0 "self", r.2)
      else
        (.ok .nil, r.2)

/-- LoxClass::call — allocate a fresh instance, bind and run the "new"
initializer (if any) for its side effects, and return the instance. -/
def callClass (fuel : Nat) (c : LoxClass) (args : List Value) (s : InterpState) :
    Except IExit Value × InterpState :=
  match fuel with
  | 0 => (.error .stuck, s)
  | fuel + 1 =>
    let iid := s.instances.length
    let s₁ := { s with instances := s.instances ++ [⟨c, []⟩] }
    match findMethod c "new" with
    | some initializer =>
      let bs := initializer.bind iid s₁
      bindE (callFunction fuel bs.1 args bs.2) fun _ s₂ =>
        (.ok (.callable (.inst iid)), s₂)
    | none => (.ok (.callable (.inst iid)), s₁)

end

/-- Interpreter::new — globals with the two natives pre-registered; the
current environment is the globals frame. -/
def initialInterpState (locals : List (Nat × Nat)) : InterpState :=
  { envs := [{ values := [("clock", .nativeFunction ⟨0, .clock⟩),
                          ("print", .nativeFunction ⟨1, .print⟩)],
               enclosing := none }],
    instances := [], environment := 0, globals := 0, locals := locals, output := [] }

/-- Interpreter::interpret — execute the top-level statements in order,
stopping at the first exit signal. -/
def interpret (fuel : Nat) (stmts : List Stmt) (s : InterpState) :
    Except IExit Unit × InterpState :=
  execStmtList fuel stmts s

/- Parser, src/parser.rs.  A parse error is `ParseError {}`, carrying
nothing.  The source indexes the token vector directly and would panic out
of bounds; under the lexer contract (spec section 6: the final token is the
end-of-input sentinel) no index ever goes out of range, and the embedding
totalises `peek`/`previous` with an end-of-input default token. -/

structure PState where
  tokens : List Token
  current : Nat
  uuid : Nat

def eofToken : Token := { tokenType := .eof, lexeme := "", literal := .nil, line := 0 }

def PState.peek (p : PState) : Token := p.tokens.getD p.current eofToken

def PState.previous (p : PState) : Token := p.tokens.getD (p.current - 1) eofToken

def PState.isAtEnd (p : PState) : Bool := p.peek.tokenType == .eof

def PState.advance (p : PState) : Token × PState :=
  let p' := if p.isAtEnd then p else { p with current := p.current + 1 }
  (p'.previous, p')

def PState.check (p : PState) (t : TokenType) : Bool :=
  if p.isAtEnd then false else p.peek.tokenType == t

def PState.matches (p : PState) (ts : List TokenType) : Bool × PState :=
  if ts.any (fun t => p.check t) then (true, (p.advance).2) else (false, p)

def PState.consume (p : PState) (t : TokenType) : Except Unit Token × PState :=
  if p.check t then
    let a := p.advance
    (.ok a.1, a.2)
  else (.error (), p)

/-- The static UUID counter of src/parser.rs (`uuid_next`), threaded through
the parser state; pre-increments and returns the new value. -/
def uuidNext (p : PState) : Nat × PState := (p.uuid + 1, { p with uuid := p.uuid + 1 })

/-- The loop of Parser::synchronize. -/
def syncLoop (fuel : Nat) (p : PState) : PState :=
  match fuel with
  | 0 => p
  | fuel + 1 =>
    if p.isAtEnd then p
    else if p.previous.tokenType == .semicolon then p
    else
      match p.peek.tokenType with
      | .classKW | .funKW | .varKW | .forKW | .ifKW | .whileKW | .returnKW => p
      | _ => syncLoop fuel (p.advance).2

/-- Parser::synchronize — discard tokens to the next statement boundary. -/
def synchronize (fuel : Nat) (p : PState) : PState :=
  syncLoop fuel (p.advance).2

mutual

/-- Parser::declaration — try var/fun/statement; on failure synchronize and
report the error to the caller. -/
def declaration (fuel : Nat) (p : PState) : Except Unit Stmt × PState :=
  match fuel with
  | 0 => (.error (), p)
  | fuel + 1 =>
    let mv := p.matches [.varKW]
    let res :=
      if mv.1 then varDeclaration fuel mv.2
      else
        let mf := mv.2.matches [.funKW]
        if mf.1 then funDeclaration fuel "function" mf.2
        else statement fuel mf.2
    match res.1 with
    | .ok s => (.ok s, res.2)
    | .error _ => (.error (), synchronize fuel res.2)

/-- Parser::fun_declaration. -/
def funDeclaration (fuel : Nat) (kind : String) (p : PState) : Except Unit Stmt × PState :=
  match fuel with
  | 0 => (.error (), p)
  | fuel + 1 =>
    let _ := kind
    bindE (p.consume .identifier) fun name p₁ =>
      bindE (p₁.consume .leftParen) fun _ p₂ =>
        let ps :=
          if p₂.check .rightParen then (Except.ok [], p₂)
          else paramLoop fuel [] p₂
        bindE ps fun params p₃ =>
          bindE (p₃.consume .rightParen) fun _ p₄ =>
            bindE (p₄.consume .leftBrace) fun _ p₅ =>
              bindE (blockList fuel p₅) fun body p₆ =>
                (.ok (Stmt.function (FunctionDecl.mk name params body)), p₆)

/-- The parameter loop of fun_declaration (the over-255 case only emits a
recoverable diagnostic in the source). -/
def paramLoop (fuel : Nat) (acc : List Token) (p : PState) : Except Unit (List Token) × PState :=
  match fuel with
  | 0 => (.error (), p)
  | fuel + 1 =>
    bindE (p.consume .identifier) fun tok p₁ =>
      let m := p₁.matches [.comma]
      if m.1 then paramLoop fuel (acc ++ [tok]) m.2
      else (.ok (acc ++ [tok]), m.2)

/-- Parser::var_declaration — the nil default initializer (and its uuid) is
built before the `=` check, as in the source. -/
def varDeclaration (fuel : Nat) (p : PState) : Except Unit Stmt × PState :=
  match fuel with
  | 0 => (.error (), p)
  | fuel + 1 =>
    bindE (p.consume .identifier) fun name p₁ =>
      let u := uuidNext p₁
      let initDefault : Expr := Expr.literal ScanLit.nil u.1
      let r :=
        let m := u.2.matches [.equal]
        if m.1 then expression fuel m.2
        else (Except.ok initDefault, m.2)
      bindE r fun initializer p₂ =>
        bindE (p₂.consume .semicolon) fun _ p₃ =>
          (.ok (Stmt.varDecl name initializer), p₃)

/-- Parser::statement. -/
def statement (fuel : Nat) (p : PState) : Except Unit Stmt × PState :=
  match fuel with
  | 0 => (.error (), p)
  | fuel + 1 =>
    if p.isAtEnd then expressionStatement fuel p
    else
      let a := p.advance
      match a.2.previous.tokenType with
      | .forKW => forStatement fuel a.2
      | .ifKW => ifStatement fuel a.2
      | .whileKW => whileStatement fuel a.2
      | .leftBrace =>
        bindE (blockList fuel a.2) fun ss p₁ => (.ok (Stmt.block ss), p₁)
      | .returnKW => returnStatement fuel a.2
      | _ => expressionStatement fuel { a.2 with current := a.2.current - 1 }

/-- Parser::return_statement — a bare `return ;` gets a nil literal as its
value, indistinguishable in the AST from `return nil ;`. -/
def returnStatement (fuel : Nat) (p : PState) : Except Unit Stmt × PState :=
  match fuel with
  | 0 => (.error (), p)
  | fuel + 1 =>
    let keyword := p.previous
    let r :=
      if !(p.check .semicolon) then expression fuel p
      else
        let u := uuidNext p
        (Except.ok (Expr.literal ScanLit.nil u.1), u.2)
    bindE r fun value p₁ =>
      bindE (p₁.consume .semicolon) fun _ p₂ =>
        (.ok (Stmt.ret keyword value), p₂)

/-- Parser::for_statement — desugars into while wrapped in blocks. -/
def forStatement (fuel : Nat) (p : PState) : Except Unit Stmt × PState :=
  match fuel with
  | 0 => (.error (), p)
  | fuel + 1 =>
    bindE (p.consume .leftParen) fun _ p₁ =>
      let mSemi := p₁.matches [.semicolon]
      let initR : Except Unit (Option Stmt) × PState :=
        if mSemi.1 then (.ok none, mSemi.2)
        else
          let mVar := mSemi.2.matches [.varKW]
          if mVar.1 then
            bindE (varDeclaration fuel mVar.2) fun s q => (.ok (some s), q)
          else
            bindE (expressionStatement fuel mVar.2) fun s q => (.ok (some s), q)
      bindE initR fun initializer p₂ =>
        let condR :=
          if !(p₂.check .semicolon) then expression fuel p₂
          else
            let u := uuidNext p₂
            (Except.ok (Expr.literal (ScanLit.boolean true) u.1), u.2)
        bindE condR fun condition p₃ =>
          bindE (p₃.consume .semicolon) fun _ p₄ =>
            let incR : Except Unit (Option Expr) × PState :=
              if !(p₄.check .rightParen) then
                bindE (expression fuel p₄) fun e q => (.ok (some e), q)
              else (.ok none, p₄)
            bindE incR fun increment p₅ =>
              bindE (p₅.consume .rightParen) fun _ p₆ =>
                bindE (statement fuel p₆) fun body p₇ =>
                  let body₁ :=
                    match increment with
                    | some inc => Stmt.block [body, Stmt.expression inc]
                    | none => body
                  let body₂ := Stmt.whileStmt condition body₁
                  let body₃ :=
                    match initializer with
                    | some init => Stmt.block [init, body₂]
                    | none => body₂
                  (.ok body₃, p₇)

/-- Parser::if_statement — parentheses around the condition are optional. -/
def ifStatement (fuel : Nat) (p : PState) : Except Unit Stmt × PState :=
  match fuel with
  | 0 => (.error (), p)
  | fuel + 1 =>
    let hasParen := p.check .leftParen
    let p₀ := if hasParen then (p.advance).2 else p
    bindE (expression fuel p₀) fun condition p₁ =>
      let closeR :=
        if hasParen then
          bindE (p₁.consume .rightParen) fun _ q => (Except.ok (), q)
        else (Except.ok (), p₁)
      bindE closeR fun _ p₂ =>
        bindE (statement fuel p₂) fun thenB p₃ =>
          let mElse := p₃.matches [.elseKW]
          if mElse.1 then
            bindE (statement fuel mElse.2) fun elseB p₄ =>
              (.ok (Stmt.ifStmt condition thenB (some elseB)), p₄)
          else (.ok (Stmt.ifStmt condition thenB none), mElse.2)

/-- Parser::while_statement — parentheses around the condition are
optional. -/
def whileStatement (fuel : Nat) (p : PState) : Except Unit Stmt × PState :=
  match fuel with
  | 0 => (.error (), p)
  | fuel + 1 =>
    let hasParen := p.check .leftParen
    let p₀ := if hasParen then (p.advance).2 else p
    bindE (expression fuel p₀) fun condition p₁ =>
      let closeR :=
        if hasParen then
          bindE (p₁.consume .rightParen) fun _ q => (Except.ok (), q)
        else (Except.ok (), p₁)
      bindE closeR fun _ p₂ =>
        bindE (statement fuel p₂) fun body p₃ =>
          (.ok (Stmt.whileStmt condition body), p₃)

/-- Parser::block — declarations until the closing brace, which is
consumed. -/
def blockList (fuel : Nat) (p : PState) : Except Unit (List Stmt) × PState :=
  match fuel with
  | 0 => (.error (), p)
  | fuel + 1 =>
    if !(p.check .rightBrace) && !p.isAtEnd then
      bindE (declaration fuel p) fun s p₁ =>
        bindE (blockList fuel p₁) fun ss p₂ => (.ok (s :: ss), p₂)
    else
      bindE (p.consume .rightBrace) fun _ p₁ => (.ok [], p₁)

/-- Parser::expression_statement. -/
def expressionStatement (fuel : Nat) (p : PState) : Except Unit Stmt × PState :=
  match fuel with
  | 0 => (.error (), p)
  | fuel + 1 =>
    bindE (expression fuel p) fun e p₁ =>
      bindE (p₁.consume .semicolon) fun _ p₂ =>
        (.ok (Stmt.expression e), p₂)

/-- Parser::expression. -/
def expression (fuel : Nat) (p : PState) : Except Unit Expr × PState :=
  match fuel with
  | 0 => (.error (), p)
  | fuel + 1 => assignment fuel p

/-- Parser::assignment — only a bare variable reference is a valid
assignment target. -/
def assignment (fuel : Nat) (p : PState) : Except Unit Expr × PState :=
  match fuel with
  | 0 => (.error (), p)
  | fuel + 1 =>
    bindE (orExpr fuel p) fun e p₁ =>
      let m := p₁.matches [.equal]
      if m.1 then
        bindE (assignment fuel m.2) fun value p₂ =>
          match e with
          | .varRef nm _ =>
            let u := uuidNext p₂
            (.ok (Expr.assignment nm value u.1), u.2)
          | _ => (.error (), p₂)
      else (.ok e, m.2)

/-- Parser::or. -/
def orExpr (fuel : Nat) (p : PState) : Except Unit Expr × PState :=
  match fuel with
  | 0 => (.error (), p)
  | fuel + 1 => bindE (andExpr fuel p) fun e p₁ => orLoop fuel e p₁

def orLoop (fuel : Nat) (e : Expr) (p : PState) : Except Unit Expr × PState :=
  match fuel with
  | 0 => (.error (), p)
  | fuel + 1 =>
    let m := p.matches [.orKW, .barBar]
    if m.1 then
      let operator := m.2.previous
      bindE (andExpr fuel m.2) fun right p₁ =>
        let u := uuidNext p₁
        orLoop fuel (Expr.logical e operator right u.1) u.2
    else (.ok e, m.2)

/-- Parser::and — note the right operand is a full `and` expression, as in
the source. -/
def andExpr (fuel : Nat) (p : PState) : Except Unit Expr × PState :=
  match fuel with
  | 0 => (.error (), p)
  | fuel + 1 => bindE (equality fuel p) fun e p₁ => andLoop fuel e p₁

def andLoop (fuel : Nat) (e : Expr) (p : PState) : Except Unit Expr × PState :=
  match fuel with
  | 0 => (.error (), p)
  | fuel + 1 =>
    let m := p.matches [.andKW, .amperAmper]
    if m.1 then
      let operator := m.2.previous
      bindE (andExpr fuel m.2) fun right p₁ =>
        let u := uuidNext p₁
        andLoop fuel (Expr.logical e operator right u.1) u.2
    else (.ok e, m.2)

/-- Parser::equality — the accumulator stays a Result and is only unwrapped
when an operator matches, as in the source. -/
def equality (fuel : Nat) (p : PState) : Except Unit Expr × PState :=
  match fuel with
  | 0 => (.error (), p)
  | fuel + 1 =>
    let c := comparison fuel p
    eqLoop fuel c.1 c.2

def eqLoop (fuel : Nat) (acc : Except Unit Expr) (p : PState) : Except Unit Expr × PState :=
  match fuel with
  | 0 => (.error (), p)
  | fuel + 1 =>
    let m := p.matches [.bangEqual, .equalEqual]
    if m.1 then
      let operator := m.2.previous
      bindE (comparison fuel m.2) fun right p₁ =>
        match acc with
        | .error _ => (.error (), p₁)
        | .ok l =>
          let u := uuidNext p₁
          eqLoop fuel (.ok (Expr.binary l operator right u.1)) u.2
    else (acc, m.2)

/-- Parser::comparison. -/
def comparison (fuel : Nat) (p : PState) : Except Unit Expr × PState :=
  match fuel with
  | 0 => (.error (), p)
  | fuel + 1 =>
    let c := term fuel p
    compLoop fuel c.1 c.2

def compLoop (fuel : Nat) (acc : Except Unit Expr) (p : PState) : Except Unit Expr × PState :=
  match fuel with
  | 0 => (.error (), p)
  | fuel + 1 =>
    let m := p.matches [.greater, .greaterEqual, .less, .lessEqual]
    if m.1 then
      let operator := m.2.previous
      bindE (term fuel m.2) fun right p₁ =>
        match acc with
        | .error _ => (.error (), p₁)
        | .ok l =>
          let u := uuidNext p₁
          compLoop fuel (.ok (Expr.binary l operator right u.1)) u.2
    else (acc, m.2)

/-- Parser::term. -/
def term (fuel : Nat) (p : PState) : Except Unit Expr × PState :=
  match fuel with
  | 0 => (.error (), p)
  | fuel + 1 =>
    let c := factor fuel p
    termLoop fuel c.1 c.2

def termLoop (fuel : Nat) (acc : Except Unit Expr) (p : PState) : Except Unit Expr × PState :=
  match fuel with
  | 0 => (.error (), p)
  | fuel + 1 =>
    let m := p.matches [.plus, .minus]
    if m.1 then
      let operator := m.2.previous
      bindE (factor fuel m.2) fun right p₁ =>
        match acc with
        | .error _ => (.error (), p₁)
        | .ok l =>
          let u := uuidNext p₁
          termLoop fuel (.ok (Expr.binary l operator right u.1)) u.2
    else (acc, m.2)

/-- Parser::factor. -/
def factor (fuel : Nat) (p : PState) : Except Unit Expr × PState :=
  match fuel with
  | 0 => (.error (), p)
  | fuel + 1 =>
    let c := unaryExpr fuel p
    factorLoop fuel c.1 c.2

def factorLoop (fuel : Nat) (acc : Except Unit Expr) (p : PState) : Except Unit Expr × PState :=
  match fuel with
  | 0 => (.error (), p)
  | fuel + 1 =>
    let m := p.matches [.star, .slash, .percentage]
    if m.1 then
      let operator := m.2.previous
      bindE (unaryExpr fuel m.2) fun right p₁ =>
        match acc with
        | .error _ => (.error (), p₁)
        | .ok l =>
          let u := uuidNext p₁
          factorLoop fuel (.ok (Expr.binary l operator right u.1)) u.2
    else (acc, m.2)

/-- Parser::unary. -/
def unaryExpr (fuel : Nat) (p : PState) : Except Unit Expr × PState :=
  match fuel with
  | 0 => (.error (), p)
  | fuel + 1 =>
    let m := p.matches [.bang, .minus]
    if m.1 then
      let operator := m.2.previous
      bindE (unaryExpr fuel m.2) fun right p₁ =>
        let u := uuidNext p₁
        (.ok (Expr.unary operator right u.1), u.2)
    else callExpr fuel m.2

/-- Parser::call — chained call suffixes (only `(`; this parser has no `.`
property suffix). -/
def callExpr (fuel : Nat) (p : PState) : Except Unit Expr × PState :=
  match fuel with
  | 0 => (.error (), p)
  | fuel + 1 => bindE (primary fuel p) fun e p₁ => callLoop fuel e p₁

def callLoop (fuel : Nat) (e : Expr) (p : PState) : Except Unit Expr × PState :=
  match fuel with
  | 0 => (.error (), p)
  | fuel + 1 =>
    let m := p.matches [.leftParen]
    if m.1 then
      bindE (finishCall fuel e m.2) fun e' p₁ => callLoop fuel e' p₁
    else (.ok e, m.2)

/-- Parser::finish_call (the over-255 case only emits a recoverable
diagnostic in the source). -/
def finishCall (fuel : Nat) (callee : Expr) (p : PState) : Except Unit Expr × PState :=
  match fuel with
  | 0 => (.error (), p)
  | fuel + 1 =>
    let argsR :=
      if !(p.check .rightParen) then argLoop fuel [] p
      else (Except.ok [], p)
    bindE argsR fun args p₁ =>
      bindE (p₁.consume .rightParen) fun paren p₂ =>
        let u := uuidNext p₂
        (.ok (Expr.call callee paren args u.1), u.2)

def argLoop (fuel : Nat) (acc : List Expr) (p : PState) : Except Unit (List Expr) × PState :=
  match fuel with
  | 0 => (.error (), p)
  | fuel + 1 =>
    bindE (expression fuel p) fun e p₁ =>
      let m := p₁.matches [.comma]
      if m.1 then argLoop fuel (acc ++ [e]) m.2
      else (.ok (acc ++ [e]), m.2)

/-- Parser::primary. -/
def primary (fuel : Nat) (p : PState) : Except Unit Expr × PState :=
  match fuel with
  | 0 => (.error (), p)
  | fuel + 1 =>
    let mT := p.matches [.trueKW]
    if mT.1 then
      let u := uuidNext mT.2
      (.ok (Expr.literal (ScanLit.boolean true) u.1), u.2)
    else
      let mF := mT.2.matches [.falseKW]
      if mF.1 then
        let u := uuidNext mF.2
        (.ok (Expr.literal (ScanLit.boolean false) u.1), u.2)
      else
        let mN := mF.2.matches [.nilKW]
        if mN.1 then
          let u := uuidNext mN.2
          (.ok (Expr.literal ScanLit.nil u.1), u.2)
        else
          let mNum := mN.2.matches [.number, .stringTok]
          if mNum.1 then
            let u := uuidNext mNum.2
            (.ok (Expr.literal mNum.2.previous.literal u.1), u.2)
          else
            let mId := mNum.2.matches [.identifier]
            if mId.1 then
              let u := uuidNext mId.2
              (.ok (Expr.varRef mId.2.previous u.1), u.2)
            else
              let mLp := mId.2.matches [.leftParen]
              if mLp.1 then
                bindE (expression fuel mLp.2) fun e p₁ =>
                  bindE (p₁.consume .rightParen) fun _ p₂ =>
                    let u := uuidNext p₂
                    (.ok (Expr.grouping e u.1), u.2)
              else (.error (), mLp.2)

end

def initP (tokens : List Token) : PState := { tokens := tokens, current := 0, uuid := 0 }

/-- The loop of Parser::parse: collect every successfully parsed top-level
declaration, flagging had_error when any declaration failed (panic-mode
recovery already resumed inside `declaration`). -/
def parseLoop (fuel : Nat) (p : PState) : List Stmt × Bool × PState :=
  match fuel with
  | 0 => ([], false, p)
  | fuel + 1 =>
    if p.isAtEnd then ([], false, p)
    else
      let d := declaration fuel p
      let rest := parseLoop fuel d.2
      match d.1 with
      | .ok s => (s :: rest.1, rest.2.1, rest.2.2)
      | .error _ => (rest.1, true, rest.2.2)

/-- Parser::parse — the collected statements only when no declaration
failed; otherwise a bare failure signal. -/
def parse (fuel : Nat) (tokens : List Token) : Except Unit (List Stmt) :=
  let r := parseLoop fuel (initP tokens)
  if r.2.1 then .error () else .ok r.1

/-- Pipeline outcome of lib.rs `run`, from the token stream on (scanning is
an external collaborator). -/
inductive RunOutcome
  | parseFailure
  | resolveFailure
  | completed (r : Except IExit Unit) (s : InterpState)

/-- lib.rs `run`: parse; on success resolve into a fresh interpreter's
side-table; on success interpret.  The interpreter never runs when parsing
or resolution failed. -/
def runTokens (fuel : Nat) (tokens : List Token) : RunOutcome :=
  match parse fuel tokens with
  | .error _ => .parseFailure
  | .ok stmts =>
    let r := resolveStmts fuel stmts initialRState
    match r.1 with
    | .error _ => .resolveFailure
    | .ok _ =>
      let i := interpret fuel stmts (initialInterpState r.2.locals)
      .completed i.1 i.2

/- Concrete programs and inputs used by the claim theorems. -/

def identTok (s : String) : Token := ⟨.identifier, s, .nil, 1⟩

def parenTok : Token := ⟨.rightParen, ")", .nil, 1⟩

def selfTok : Token := ⟨.selfKW, "self", .nil, 1⟩

def returnTok : Token := ⟨.returnKW, "return", .nil, 1⟩

/-- The program `{ var x = 1; { var x = 2; print(x); } }`: the reference to
`x` (uuid 4) sits in a block whose own scope declares `x`, with another
declaration of `x` in the enclosing block scope. -/
def shadowProg : Stmt :=
  .block [
    .varDecl (identTok "x") (.literal (.number 1) 1),
    .block [
      .varDecl (identTok "x") (.literal (.number 2) 2),
      .expression (.call (.varRef (identTok "print") 3) parenTok [.varRef (identTok "x") 4] 5)
    ]
  ]

/-- The program `class C { setf() { self.f = 5; } } var c = C(); c.setf();
print(c.f);` (built directly as an AST: this parser has no class or property
syntax, but resolver and interpreter fully handle the nodes). -/
def c2Prog : List Stmt := [
  .classDecl (identTok "C") none
    [.function (.mk (identTok "setf") []
      [.expression (.set (.selfExpr selfTok 10) (identTok "f") (.literal (.number 5) 11) 12)])],
  .varDecl (identTok "c") (.call (.varRef (identTok "C") 13) parenTok [] 14),
  .expression (.call (.get (.varRef (identTok "c") 15) (identTok "setf") 16) parenTok [] 17),
  .expression (.call (.varRef (identTok "print") 18) parenTok
    [.get (.varRef (identTok "c") 19) (identTok "f") 20] 21)
]

/-- A class declaration whose superclass expression is `print(7)` — a call
with an observable side effect whose value (nil) is not a class. -/
def c3Prog : List Stmt := [
  .classDecl (identTok "B")
    (some (.call (.varRef (identTok "print") 30) parenTok [.literal (.number 7) 31] 32))
    []
]

/-- `class C { new() { return; } }` — the initializer body holds a bare
return, which the parser represents as `return nil`. -/
def c5Prog : List Stmt := [
  .classDecl (identTok "C") none
    [.function (.mk (identTok "new") [] [.ret returnTok (.literal .nil 40)])]
]

/-- A two-frame chain: the root holds `x`, the inner frame (id 1) holds
nothing. -/
def heapCX : List Environment := [⟨[("x", Value.number 1)], none⟩, ⟨[], some 0⟩]

/-- C1: the claim says a reference whose name occurs in several enclosing
scopes gets the hop count of the innermost one, so the inner `x` prints 2.
The code's resolve_local has no break: it records the innermost hit first
and then OVERWRITES it with every outer hit, so the side-table ends with the
hop count of the OUTERMOST scope containing the name.  On `{ var x = 1;
{ var x = 2; print(x); } }` the reference (uuid 4) gets hop 1 instead of 0,
and the program prints 1, not the 2 the specification requires.  (The
spec's own shadowing example declares the outer x at global level, which is
in no resolver scope, so that example accidentally still prints 2.) -/
theorem resolver_records_outermost_hop_for_shadowed_name :
    (resolveStmts 100 [shadowProg] initialRState).1 = .ok ()
    ∧ (resolveStmts 100 [shadowProg] initialRState).2.locals = [(4, 1)]
    ∧ (interpret 100 [shadowProg]
        (initialInterpState (resolveStmts 100 [shadowProg] initialRState).2.locals)).2.output
      = [Value.number 1] :=
  ⟨rfl, rfl, rfl⟩

/-- C2: the claim says the bound closure's "self" frame holds the very
instance that was accessed, so `self.f = 5` inside a method is visible to
later reads on that instance.  LoxInstance::get instead binds
`Rc::new(RefCell::new(self.to_owned()))` — a fresh copy.  Running
`class C { setf() { self.f = 5; } } var c = C(); c.setf(); print(c.f);`
leaves the accessed instance (id 0) without the field — the write landed on
the clone (id 1) — and the subsequent read `c.f` is an undefined-property
runtime error instead of printing 5. -/
theorem bound_method_self_is_a_copy :
    (resolveStmts 100 c2Prog initialRState).1 = .ok ()
    ∧ (interpret 100 c2Prog
        (initialInterpState (resolveStmts 100 c2Prog initialRState).2.locals)).1
      = .error .runtimeError
    ∧ (interpret 100 c2Prog
        (initialInterpState (resolveStmts 100 c2Prog initialRState).2.locals)).2.instances.map
        InstData.fields
      = [[], [("f", Value.number 5)]] :=
  ⟨rfl, rfl, rfl⟩

/-- C3: the claim says class execution evaluates the superclass expression,
fails fatally when its value is not a class, and links it into method
lookup.  Interpreter::visit_class ignores the statement's superclass field
entirely (its call `LoxClass::new(stmt.name.lexeme.clone(), methods)` does
not even supply the superclass parameter of the three-parameter
constructor): executing `class B < print(7) {}` succeeds, the side effect of
the superclass expression never happens (output stays empty), and the
finished class has no superclass. -/
theorem class_decl_ignores_superclass :
    (interpret 100 c3Prog (initialInterpState [])).1 = .ok ()
    ∧ (interpret 100 c3Prog (initialInterpState [])).2.output = []
    ∧ alFind? "B" ((interpret 100 c3Prog (initialInterpState [])).2.envs.getD 0 ⟨[], none⟩).values
      = some (.callable (.cls (.mk "B" none []))) :=
  ⟨rfl, rfl, rfl⟩

/-- C4 counterexample: the claim says get_at(d, name) operates on exactly the
frame d hops away without searching any other frame.  In the code get_at
delegates to `get` after hopping, and `get` searches the enclosing chain:
on a frame (id 1) that does NOT contain "x", get_at with hop 0 still
returns the value stored in the enclosing root frame. -/
theorem get_at_searches_enclosing_frames :
    envGetAt 2 heapCX 1 0 "x" = .ok (Value.number 1)
    ∧ ancestorAt heapCX 1 0 = some 1
    ∧ alFind? "x" ((heapCX.getD 1 ⟨[], none⟩).values) = none :=
  ⟨rfl, rfl, rfl⟩

/-- C4 amended: assign_at writes directly into exactly the frame reached by
following d enclosing links (no search); get_at walks exactly d links and
then searches from that frame outward, so when the name is present in the
target frame it returns that frame's binding — in particular neither
operation fails for a hop the resolver produced for a name declared in the
frame it resolved to. -/
theorem get_at_assign_at_on_target_frame :
    ∀ (d : Nat) (heap : List Environment) (eid fid : Nat) (env : Environment)
      (name : String) (v w : Value) (fuel : Nat),
      ancestorAt heap eid d = some fid → heap[fid]? = some env →
      (alFind? name env.values = some w → envGetAt (fuel + 1) heap eid d name = .ok w)
      ∧ envAssignAt heap eid d name v =
          (.ok (), heap.set fid { env with values := alInsert name v env.values }) := by
  intro d
  induction d with
  | zero =>
    intro heap eid fid env name v w fuel h1 h2
    simp only [ancestorAt, Option.some.injEq] at h1
    subst h1
    constructor
    · intro hf
      simp [envGetAt, envGet, h2, hf]
    · simp [envAssignAt, envDefine, h2]
  | succ d ih =>
    intro heap eid fid env name v w fuel h1 h2
    cases he : heap[eid]? with
    | none => simp [ancestorAt, he] at h1
    | some env' =>
      cases hen : env'.enclosing with
      | none => simp [ancestorAt, he, hen] at h1
      | some e =>
        simp only [ancestorAt, he, hen] at h1
        have hrec := ih heap e fid env name v w fuel h1 h2
        constructor
        · intro hf
          simpa [envGetAt, he, hen] using hrec.1 hf
        · simpa [envAssignAt, he, hen] using hrec.2

/-- C4 amended, witness at a one-frame chain with the name present in the
target frame. -/
theorem get_at_assign_at_on_target_frame_witness :
    envGetAt 2 [⟨[("y", Value.nil)], none⟩] 0 0 "y" = .ok Value.nil
    ∧ envAssignAt [⟨[("y", Value.nil)], none⟩] 0 0 "y" (Value.number 3) =
        (.ok (), [⟨[("y", Value.number 3)], none⟩]) := by
  have h := get_at_assign_at_on_target_frame 0 [⟨[("y", Value.nil)], none⟩] 0 0
    ⟨[("y", Value.nil)], none⟩ "y" (Value.number 3) Value.nil 1 rfl rfl
  exact ⟨h.1 rfl, h.2⟩

/-- C5 counterexample: the claim says only a value-carrying return inside an
initializer is a resolution failure while a bare return is accepted.  The
parser turns a bare `return ;` into `return`-with-nil-literal (first
conjunct, running return_statement just after the return keyword), and
visit_return rejects EVERY return while the current function kind is
initializer without inspecting the value: resolving
`class C { new() { return; } }` fails. -/
theorem bare_return_in_initializer_rejected :
    (returnStatement 10 ⟨[returnTok, ⟨.semicolon, ";", .nil, 1⟩, ⟨.eof, "", .nil, 1⟩], 1, 0⟩).1
      = .ok (Stmt.ret returnTok (Expr.literal ScanLit.nil 1))
    ∧ (resolveStmts 100 c5Prog initialRState).1 = .error () :=
  ⟨rfl, rfl⟩

/-- C5 amended: resolution fails on every return statement inside a class
initializer, whether or not it carries a value (a bare return is
represented as return-nil and is equally rejected); the check fires on the
function-kind context alone, before the value is even resolved. -/
theorem any_return_in_initializer_fails :
    ∀ (fuel : Nat) (kw : Token) (value : Expr) (st : RState),
      st.currentFunction = FunctionType.initializer →
      resolveStmt (fuel + 1) (Stmt.ret kw value) st = (.error (), st) := by
  intro fuel kw value st h
  simp [resolveStmt, h]

/-- C5 amended, witness: a bare return (nil value) resolved in initializer
context fails. -/
theorem any_return_in_initializer_fails_witness :
    resolveStmt 1 (Stmt.ret returnTok (Expr.literal ScanLit.nil 1))
      { scopes := [], currentFunction := FunctionType.initializer,
        currentClass := ClassType.none, locals := [] } =
    (.error (),
     { scopes := [], currentFunction := FunctionType.initializer,
       currentClass := ClassType.none, locals := [] }) :=
  any_return_in_initializer_fails 0 returnTok (Expr.literal ScanLit.nil 1) _ rfl

/-- C6: Parser::parse returns the complete collected statement sequence
exactly when no top-level declaration failed; if any declaration failed
(had_error set, even though panic-mode recovery collected later statements)
the result is a bare failure signal carrying no partial AST, and the
pipeline of lib.rs run stops at parseFailure — the interpreter never runs
on that input. -/
theorem parse_all_or_nothing :
    ∀ (fuel : Nat) (tokens : List Token),
      ((parseLoop fuel (initP tokens)).2.1 = false
        ∧ parse fuel tokens = .ok (parseLoop fuel (initP tokens)).1)
      ∨ ((parseLoop fuel (initP tokens)).2.1 = true
        ∧ parse fuel tokens = .error ()
        ∧ runTokens fuel tokens = .parseFailure) := by
  intro fuel tokens
  cases h : (parseLoop fuel (initP tokens)).2.1 with
  | false => exact Or.inl ⟨rfl, by simp [parse, h]⟩
  | true =>
    refine Or.inr ⟨rfl, by simp [parse, h], ?_⟩
    simp [runTokens, parse, h]

/-- C7: visit_block runs the block's statements through execute_block with
exactly one fresh child frame enclosing the current one (first conjunct);
execute_block saves the current frame id, installs the fresh frame, runs the
statements, and restores the saved id around whatever outcome the statements
produced (second conjunct spells out that shape); consequently the current
environment after a block equals the one before it on every exit path —
normal completion, a propagating Return signal, or a runtime error (third
conjunct, which holds for every fuel, hence for every outcome). -/
theorem block_execution_env_discipline :
    ∀ (fuel : Nat) (b : List Stmt) (s : InterpState) (stmts : List Stmt)
      (env : Environment) (s' : InterpState),
      execStmt (fuel + 1) (Stmt.block b) s =
        executeBlock fuel b { values := [], enclosing := some s.environment } s
      ∧ executeBlock (fuel + 1) stmts env s' =
          ((execStmtList fuel stmts
              { s' with envs := s'.envs ++ [env], environment := s'.envs.length }).1,
           { (execStmtList fuel stmts
              { s' with envs := s'.envs ++ [env], environment := s'.envs.length }).2
             with environment := s'.environment })
      ∧ (executeBlock fuel stmts env s').2.environment = s'.environment := by
  intro fuel b s stmts env s'
  refine ⟨rfl, rfl, ?_⟩
  cases fuel with
  | zero => rfl
  | succ n => simp [executeBlock]

/-- C8: visit_logical evaluates the left operand; for `or` (keyword or `||`)
a truthy left is returned without evaluating the right, for `and` (keyword
or `&&`) a falsy left is returned without evaluating the right; otherwise
the result is the evaluation of the right operand from the post-left state;
and exactly nil and boolean false are falsy. -/
theorem logical_short_circuit :
    ∀ (fuel : Nat) (a b : Expr) (op : Token) (u : Nat) (s s₁ : InterpState) (v : Value),
      (evalExpr fuel a s = (.ok v, s₁) →
        (((op.tokenType = .orKW ∨ op.tokenType = .barBar) → isTruthy v = true →
            evalExpr (fuel + 1) (Expr.logical a op b u) s = (.ok v, s₁))
        ∧ ((op.tokenType = .andKW ∨ op.tokenType = .amperAmper) → isTruthy v = false →
            evalExpr (fuel + 1) (Expr.logical a op b u) s = (.ok v, s₁))
        ∧ ((op.tokenType = .orKW ∨ op.tokenType = .barBar) → isTruthy v = false →
            evalExpr (fuel + 1) (Expr.logical a op b u) s = evalExpr fuel b s₁)
        ∧ ((op.tokenType = .andKW ∨ op.tokenType = .amperAmper) → isTruthy v = true →
            evalExpr (fuel + 1) (Expr.logical a op b u) s = evalExpr fuel b s₁)))
      ∧ (isTruthy v = false ↔ (v = .nil ∨ v = .boolean false)) := by
  intro fuel a b op u s s₁ v
  constructor
  · intro h
    refine ⟨?_, ?_, ?_, ?_⟩
    · rintro (hop | hop) ht <;> simp [evalExpr, h, hop, ht]
    · rintro (hop | hop) ht <;> simp [evalExpr, h, hop, ht]
    · rintro (hop | hop) ht <;> simp [evalExpr, h, hop, ht]
    · rintro (hop | hop) ht <;> simp [evalExpr, h, hop, ht]
  · cases v <;> simp [isTruthy]

/-- C8 witness: `false && (1 / 0)` yields false without evaluating the
division. -/
theorem logical_short_circuit_witness :
    evalExpr 6
      (Expr.logical (Expr.literal (ScanLit.boolean false) 1)
        ⟨.amperAmper, "&&", .nil, 1⟩
        (Expr.binary (Expr.literal (ScanLit.number 1) 2) ⟨.slash, "/", .nil, 1⟩
          (Expr.literal (ScanLit.number 0) 3) 4) 5)
      (initialInterpState []) =
    (.ok (Value.boolean false), initialInterpState []) := by
  have h := logical_short_circuit 5 (Expr.literal (ScanLit.boolean false) 1)
    (Expr.binary (Expr.literal (ScanLit.number 1) 2) ⟨.slash, "/", .nil, 1⟩
      (Expr.literal (ScanLit.number 0) 3) 4)
    ⟨.amperAmper, "&&", .nil, 1⟩ 5 (initialInterpState []) (initialInterpState [])
    (Value.boolean false)
  exact (h.1 rfl).2.1 (Or.inr rfl) rfl

/-- C9: calling a class allocates a fresh instance (its id is the size of
the pre-call instance heap, so it is not any previously existing instance);
whenever the call returns a value at all, that value is the fresh instance —
regardless of whether a "new" constructor exists (second conjunct: the
no-constructor case) and regardless of any value the constructor produced
(third conjunct: the constructor, bound to the fresh instance through an
extra "self" frame, runs only for its effects and its result is
discarded). -/
theorem class_call_returns_fresh_instance :
    ∀ (fuel : Nat) (c : LoxClass) (args : List Value) (s : InterpState),
      (∀ v s', callClass (fuel + 1) c args s = (.ok v, s') →
        v = .callable (.inst s.instances.length))
      ∧ (findMethod c "new" = none →
          callClass (fuel + 1) c args s =
            (.ok (.callable (.inst s.instances.length)),
             { s with instances := s.instances ++ [⟨c, []⟩] }))
      ∧ (∀ init, findMethod c "new" = some init →
          callClass (fuel + 1) c args s =
            (let s₂ : InterpState := { s with instances := s.instances ++ [⟨c, []⟩] }
             let bf := init.bind s.instances.length s₂
             bindE (callFunction fuel bf.1 args bf.2) fun _ s₃ =>
               (.ok (.callable (.inst s.instances.length)), s₃))) := by
  intro fuel c args s
  refine ⟨?_, ?_, ?_⟩
  · intro v s' h
    cases hf : findMethod c "new" with
    | none =>
      simp [callClass, hf] at h
      exact h.1.symm
    | some init =>
      simp only [callClass, hf] at h
      rcases hr : callFunction fuel
          (init.bind s.instances.length { s with instances := s.instances ++ [⟨c, []⟩] }).1 args
          (init.bind s.instances.length { s with instances := s.instances ++ [⟨c, []⟩] }).2 with
        ⟨r, s₃⟩
      rw [hr] at h
      cases r with
      | ok _ => simp [bindE] at h; exact h.1.symm
      | error e => simp [bindE] at h
  · intro hf
    simp [callClass, hf]
  · intro init hf
    simp [callClass, hf]

/-- C9 witness, at a class with no constructor. -/
theorem class_call_returns_fresh_instance_witness :
    callClass 1 (LoxClass.mk "E" none []) [] (initialInterpState []) =
      (.ok (.callable (.inst 0)),
       { initialInterpState [] with instances := [⟨LoxClass.mk "E" none [], []⟩] }) :=
  (class_call_returns_fresh_instance 0 (LoxClass.mk "E" none []) []
    (initialInterpState [])).2.1 rfl

/-- C10: a call of a non-initializer user function whose body runs to
completion without a Return signal and without a runtime error yields
nil. -/
theorem function_call_without_return_yields_nil :
    ∀ (fuel : Nat) (f : LoxFunction) (args : List Value) (s s₁ : InterpState),
      f.isInitializer = false →
      executeBlock fuel f.declaration.body (paramBind f.declaration.params args f.closure) s
        = (.ok (), s₁) →
      callFunction (fuel + 1) f args s = (.ok .nil, s₁) := by
  intro fuel f args s s₁ hinit hrun
  simp [callFunction, hrun, hinit]

/-- C10 witness: calling a parameterless function with an empty body yields
nil (and the call frame it allocated). -/
theorem function_call_without_return_yields_nil_witness :
    callFunction 4 ⟨.mk (identTok "g") [] [], 0, false⟩ [] (initialInterpState []) =
      (.ok .nil,
       { initialInterpState [] with
         envs := (initialInterpState []).envs ++ [⟨[], some 0⟩] }) :=
  function_call_without_return_yields_nil 3 ⟨.mk (identTok "g") [] [], 0, false⟩ []
    (initialInterpState [])
    { initialInterpState [] with envs := (initialInterpState []).envs ++ [⟨[], some 0⟩] }
    rfl rfl

end JLox
